import Mathlib

/-!
Shallow embedding of the Taraxa snapshots-api snapshot resolution engine:
the filename parser (internal/parser/snapshot.go), the data model
(internal/models), and the cache/refresh coordinator
(internal/service/snapshot.go).  Strings are modelled as lists of
characters; Go's `time.Time` values produced by the parser are UTC with
second precision, so they are modelled by their calendar fields, ordered
by the order-isomorphic positional key.
-/

namespace SnapshotsApi

/-- Strings are modelled as lists of characters. -/
abbrev Str := List Char

/-- models: `type Network string`. -/
abbrev Network := Str

/-- models: `type SnapshotType string`. -/
abbrev SnapshotType := Str

def NetworkMainnet : Network := "mainnet".data

def NetworkTestnet : Network := "testnet".data

def NetworkDevnet : Network := "devnet".data

def SnapshotTypeFull : SnapshotType := "full".data

def SnapshotTypeLight : SnapshotType := "light".data

/-- A parsed UTC date-time with second precision, standing for the
`time.Time` produced by `time.Parse("20060102-150405", ...)`. -/
structure DateTime where
  year : Nat
  month : Nat
  day : Nat
  hour : Nat
  minute : Nat
  second : Nat
deriving DecidableEq, Repr

/-- Positional encoding of a date-time.  On field values in calendar
range this is injective and monotone with respect to chronological
order, so comparing keys models comparing the underlying instants. -/
def DateTime.key (d : DateTime) : Nat :=
  ((((d.year * 100 + d.month) * 100 + d.day) * 100 + d.hour) * 100 + d.minute) * 100
    + d.second

/-- Go `a.After(b)`: `a` is strictly later than `b`. -/
def DateTime.after (a b : DateTime) : Bool :=
  decide (b.key < a.key)

/-- models: `Snapshot` — one snapshot file.  `block` is an `int64`. -/
structure Snapshot where
  network : Network
  type : SnapshotType
  block : Int
  timestamp : DateTime
  url : Str
  filename : Str
deriving DecidableEq, Repr

/-- models: `SnapshotInfo` — formatted projection for the API response. -/
structure SnapshotInfo where
  block : Int
  timestamp : Str
  url : Str
deriving DecidableEq, Repr

/-- models: `NetworkSnapshots`.  Absent optional fields are `none`; a
nil slice is the empty list. -/
structure NetworkSnapshots where
  full : Option SnapshotInfo := none
  light : Option SnapshotInfo := none
  previousLight : List SnapshotInfo := []
  previousFull : List SnapshotInfo := []
deriving DecidableEq, Repr

/-- Decimal digits of `n`, used to format numbers. -/
def natDigits (n : Nat) : Str :=
  Nat.toDigits 10 n

/-- Left-pad the decimal form of `n` with zeros to the given width. -/
def padNat (width n : Nat) : Str :=
  List.replicate (width - (natDigits n).length) '0' ++ natDigits n

/-- Go `Format("2006-01-02 15:04")` on a parsed UTC date-time. -/
def DateTime.format (d : DateTime) : Str :=
  padNat 4 d.year ++ '-' :: padNat 2 d.month ++ '-' :: padNat 2 d.day
    ++ ' ' :: padNat 2 d.hour ++ ':' :: padNat 2 d.minute

/-- models: `Snapshot.ToSnapshotInfo`. -/
def Snapshot.ToSnapshotInfo (s : Snapshot) : SnapshotInfo :=
  { block := s.block, timestamp := s.timestamp.format, url := s.url }

/-! ## Filename parser (internal/parser/snapshot.go) -/

def charDigitVal (c : Char) : Nat := c.toNat - 48

/-- Value of a decimal digit string. -/
def natOfDigits (s : Str) : Nat :=
  s.foldl (fun a c => 10 * a + charDigitVal c) 0

/-- All characters are decimal digits (`\d` of Go regexp is `[0-9]`). -/
def isDigits (s : Str) : Bool :=
  s.all (·.isDigit)

def int64Max : Nat := 9223372036854775807

/-- `strconv.ParseInt(s, 10, 64)` restricted to its reachable inputs
here (regex group `\d+`): a non-empty all-digit string parses to its
value when that value fits in a signed 64-bit integer, and errors
otherwise. -/
def parseInt64Digits (s : Str) : Option Int :=
  if s ≠ [] ∧ isDigits s = true then
    if natOfDigits s ≤ int64Max then some (natOfDigits s) else none
  else none

def isLeapYear (y : Nat) : Bool :=
  y % 4 = 0 ∧ (y % 100 ≠ 0 ∨ y % 400 = 0)

def daysInMonth (y m : Nat) : Nat :=
  if m = 2 then (if isLeapYear y then 29 else 28)
  else if m = 4 ∨ m = 6 ∨ m = 9 ∨ m = 11 then 30
  else 31

/-- `time.Parse("20060102-150405", s)`: fifteen characters, digits
around a dash, and the field values must form a valid calendar
date-time (Go's parser range-checks month, day, hour, minute and
second; it does not normalise). -/
def parseTimestamp (s : Str) : Option DateTime :=
  if s.length = 15 ∧ isDigits (s.take 8) = true ∧ (s.drop 8).take 1 = ['-']
      ∧ isDigits (s.drop 9) = true then
    let y := natOfDigits (s.take 4)
    let mo := natOfDigits ((s.drop 4).take 2)
    let dy := natOfDigits ((s.drop 6).take 2)
    let h := natOfDigits ((s.drop 9).take 2)
    let mi := natOfDigits ((s.drop 11).take 2)
    let sec := natOfDigits ((s.drop 13).take 2)
    if 1 ≤ mo ∧ mo ≤ 12 ∧ 1 ≤ dy ∧ dy ≤ daysInMonth y mo ∧ h ≤ 23 ∧ mi ≤ 59
        ∧ sec ≤ 59 then
      some ⟨y, mo, dy, h, mi, sec⟩
    else none
  else none

/-- Split a string at every dash.  Every regex alternative, literal and
digit group of the snapshot-name pattern is dash-free, so an anchored
match is exactly a dash-split into the seven expected parts. -/
def splitDash : Str → List Str
  | [] => [[]]
  | c :: rest =>
    if c = '-' then [] :: splitDash rest
    else
      match splitDash rest with
      | [] => [[c]]
      | p :: ps => (c :: p) :: ps

/-- Rejoin dash-separated parts; inverse of `splitDash`. -/
def joinDash : List Str → Str
  | [] => []
  | [p] => p
  | p :: ps => p ++ '-' :: joinDash ps

def validNetworks : List Str := [NetworkMainnet, NetworkTestnet, NetworkDevnet]

def validTypes : List Str := [SnapshotTypeFull, SnapshotTypeLight]

def tarGzStr : Str := ".tar.gz".data

/-- Model of the anchored match of
`^(mainnet|testnet|devnet)-(full|light)-db-block-(\d+)-(\d{8}-\d{6})\.tar\.gz$`:
on success, the four capture groups. -/
def regexMatch (name : Str) : Option (Str × Str × Str × Str) :=
  match splitDash name with
  | [n, k, db, blk, a, b, clast] =>
    if n ∈ validNetworks ∧ k ∈ validTypes ∧ db = "db".data ∧ blk = "block".data
        ∧ a ≠ [] ∧ isDigits a = true ∧ b.length = 8 ∧ isDigits b = true
        ∧ clast.length = 13 ∧ isDigits (clast.take 6) = true
        ∧ clast.drop 6 = tarGzStr then
      some (n, k, a, b ++ '-' :: clast.take 6)
    else none
  | _ => none

/-- `strings.TrimSuffix`. -/
def trimSuffix (s suf : Str) : Str :=
  if suf <:+ s then s.take (s.length - suf.length) else s

def oEndpoint : Str := "/o".data

/-- parser: `ParseSnapshot(filename, baseURL)`. -/
def ParseSnapshot (filename baseURL : Str) : Option Snapshot :=
  match regexMatch filename with
  | none => none
  | some (n, k, blockStr, tsStr) =>
    match parseInt64Digits blockStr with
    | none => none
    | some block =>
      match parseTimestamp tsStr with
      | none => none
      | some ts =>
        some { network := n, type := k, block := block, timestamp := ts,
               url := trimSuffix baseURL oEndpoint ++ '/' :: filename,
               filename := filename }

/-- parser: `IsValidNetwork`. -/
def IsValidNetwork (network : Str) : Bool :=
  network = NetworkMainnet ∨ network = NetworkTestnet ∨ network = NetworkDevnet

/-! ## Resolution engine (internal/service/snapshot.go) -/

/-- The `sort.Slice` less function of `findLatestAndPreviousSnapshots`:
block number descending, then capture timestamp descending. -/
def snapLess (a b : Snapshot) : Bool :=
  if a.block ≠ b.block then decide (b.block < a.block)
  else a.timestamp.after b.timestamp

/-- The non-strict order a slice sorted by `sort.Slice` with `snapLess`
satisfies between consecutive elements: the latter is not strictly
before the former. -/
def snapLE (a b : Snapshot) : Bool :=
  ! snapLess b a

/-- `snapLE` as a relation, for sorting. -/
def snapRel : Snapshot → Snapshot → Prop :=
  fun a b => snapLE a b = true

instance : DecidableRel snapRel :=
  fun a b => inferInstanceAs (Decidable (snapLE a b = true))

/-- service: `findLatestAndPreviousSnapshots` — sort the group by
`snapLess` descending, take the head as latest and the next up to three
elements as previous.  `sort.Slice` yields a permutation ordered by the
comparator (unstable, unspecified among ties); it is modelled by a
concrete sort with the induced non-strict order. -/
def findLatestAndPreviousSnapshots (snapshots : List Snapshot) :
    Option Snapshot × List Snapshot :=
  if snapshots = [] then (none, [])
  else
    let sorted := snapshots.insertionSort snapRel
    (sorted.head?, (sorted.drop 1).take 3)

/-- The per-network, per-type group built by `processSnapshots`'s
grouping loop: the sub-list of snapshots of that network and type, in
input order (the loop appends in input order). -/
def groupOf (snapshots : List Snapshot) (n : Network) (t : SnapshotType) :
    List Snapshot :=
  snapshots.filter (fun s => decide (s.network = n ∧ s.type = t))

/-- The `NetworkSnapshots` value `processSnapshots` builds for one
network: each type's group, when non-empty, contributes its latest and
previous entries.  An empty group leaves that type's fields at their
zero values, exactly as the source's map-of-types loop does. -/
def buildNetworkResult (snapshots : List Snapshot) (n : Network) :
    NetworkSnapshots :=
  let fullRes := findLatestAndPreviousSnapshots (groupOf snapshots n SnapshotTypeFull)
  let lightRes := findLatestAndPreviousSnapshots (groupOf snapshots n SnapshotTypeLight)
  { full := fullRes.1.map Snapshot.ToSnapshotInfo,
    light := lightRes.1.map Snapshot.ToSnapshotInfo,
    previousFull := fullRes.2.map Snapshot.ToSnapshotInfo,
    previousLight := lightRes.2.map Snapshot.ToSnapshotInfo }

/-- service: `processSnapshots` — the resulting map has a key exactly
for each network that occurs among the input snapshots. -/
def processSnapshots (snapshots : List Snapshot) :
    Network → Option NetworkSnapshots :=
  fun n =>
    if snapshots.any (fun s => decide (s.network = n)) then
      some (buildNetworkResult snapshots n)
    else none

/-! ## Cache/refresh coordinator (internal/service/snapshot.go) -/

/-- The failure modes of `fetchSnapshots`: transport error from
`http.Get`, non-200 status, or an undecodable body. -/
inductive FetchErr where
  | transport
  | badStatus (code : Nat)
  | decodeFailure
deriving DecidableEq, Repr

/-- The outcome of the `http.Get` on the bucket URL, consumed by
`fetchSnapshots`: a transport error, or a status code together with the
decoded list of object names (`none` when the body does not decode). -/
inductive HTTPResult where
  | transportError
  | response (status : Nat) (body : Option (List Str))
deriving DecidableEq, Repr

/-- service: `fetchSnapshots` — check transport, status and decoding,
then parse every object name against the bucket base URL, silently
skipping names the parser rejects. -/
def fetchSnapshots (bucketName : Str) (resp : HTTPResult) :
    Except FetchErr (List Snapshot) :=
  match resp with
  | .transportError => .error .transport
  | .response status body =>
    if status ≠ 200 then .error (.badStatus status)
    else
      match body with
      | none => .error .decodeFailure
      | some names =>
        let baseURL := "https://storage.googleapis.com/".data ++ bucketName
        .ok (names.filterMap (fun name => ParseSnapshot name baseURL))

/-- The mutable fields of `SnapshotService` relevant to caching. -/
structure ServiceState where
  cache : Network → Option NetworkSnapshots
  cacheTime : Nat
  cacheTTL : Nat

/-- A freshly constructed service: empty cache, five-minute TTL
(`NewSnapshotService`).  Time is measured in seconds. -/
def newServiceState : ServiceState :=
  { cache := fun _ => none, cacheTime := 0, cacheTTL := 300 }

/-- The unauthenticated filtering of a result: `Full` and
`PreviousFull` omitted, light fields passed through. -/
def filterUnauthenticated (r : NetworkSnapshots) : NetworkSnapshots :=
  { light := r.light, previousLight := r.previousLight }

/-- What one call to `GetSnapshotsWithAuth` produces: the returned
value or error, the service state after the call, and whether
`fetchSnapshots` was invoked. -/
structure CallResult where
  result : Except FetchErr NetworkSnapshots
  state : ServiceState
  fetched : Bool

/-- service: `GetSnapshotsWithAuth` — serve from the cache when the
requested network has an entry and the cache age is within the TTL;
otherwise fetch, rebuild the whole cache and stamp it with the current
time, then serve from the new cache.  `now` is the current time and
`resp` the outcome the bucket listing request would have. -/
def GetSnapshotsWithAuth (st : ServiceState) (bucketName : Str)
    (network : Network) (authenticated : Bool) (now : Nat)
    (resp : HTTPResult) : CallResult :=
  let cached := st.cache network
  let cacheValid := decide (now - st.cacheTime < st.cacheTTL)
  match cached, cacheValid with
  | some c, true =>
    if !authenticated then ⟨.ok (filterUnauthenticated c), st, false⟩
    else ⟨.ok c, st, false⟩
  | _, _ =>
    match fetchSnapshots bucketName resp with
    | .error e => ⟨.error e, st, true⟩
    | .ok snapshots =>
      let newCache := processSnapshots snapshots
      let st' : ServiceState :=
        { cache := newCache, cacheTime := now, cacheTTL := st.cacheTTL }
      match newCache network with
      | none => ⟨.ok {}, st', true⟩
      | some result =>
        if !authenticated then ⟨.ok (filterUnauthenticated result), st', true⟩
        else ⟨.ok result, st', true⟩

/-- service: `GetSnapshots` — backward-compatible authenticated form. -/
def GetSnapshots (st : ServiceState) (bucketName : Str) (network : Network)
    (now : Nat) (resp : HTTPResult) : CallResult :=
  GetSnapshotsWithAuth st bucketName network true now resp

/-- service: `GetAllNetworks`. -/
def GetAllNetworks : List Network :=
  [NetworkMainnet, NetworkTestnet, NetworkDevnet]

/-! ## Specification-side vocabulary

Definitions following the specification's words, used to state the
claims and compare them against the embedded code. -/

/-- The spec's accepted shape
`<network>-<kind>-db-block-<digits>-<8digits>-<6digits>.tar.gz`,
with the name split into its five variable pieces. -/
@[reducible]
def snapshotNameForm (name n k a b c : Str) : Prop :=
  name = n ++ '-' :: (k ++ '-' :: ("db".data ++ '-' :: ("block".data ++ '-' ::
    (a ++ '-' :: (b ++ '-' :: (c ++ tarGzStr))))))

/-- The spec's "valid calendar date-time `YYYYMMDD-HHMMSS`" over the
eight-digit date `b` and six-digit time `c`: month 1–12, day within the
month (Gregorian, leap years), hour ≤ 23, minute and second ≤ 59. -/
@[reducible]
def validCalendar (b c : Str) : Prop :=
  1 ≤ natOfDigits ((b.drop 4).take 2) ∧ natOfDigits ((b.drop 4).take 2) ≤ 12 ∧
  1 ≤ natOfDigits (b.drop 6) ∧
  natOfDigits (b.drop 6) ≤
    daysInMonth (natOfDigits (b.take 4)) (natOfDigits ((b.drop 4).take 2)) ∧
  natOfDigits (c.take 2) ≤ 23 ∧ natOfDigits ((c.drop 2).take 2) ≤ 59 ∧
  natOfDigits (c.drop 4) ≤ 59

/-- The claim's acceptance condition for `ParseSnapshot`: the grammar
with a valid calendar date-time (no constraint on the block digits). -/
def grammarAccepted (name : Str) : Prop :=
  ∃ n k a b c, snapshotNameForm name n k a b c ∧ n ∈ validNetworks ∧
    k ∈ validTypes ∧ a ≠ [] ∧ isDigits a = true ∧
    b.length = 8 ∧ isDigits b = true ∧ c.length = 6 ∧ isDigits c = true ∧
    validCalendar b c

/-- `grammarAccepted` strengthened with the block digits denoting a
value that fits in a signed 64-bit integer. -/
def grammarAcceptedBounded (name : Str) : Prop :=
  ∃ n k a b c, snapshotNameForm name n k a b c ∧ n ∈ validNetworks ∧
    k ∈ validTypes ∧ a ≠ [] ∧ isDigits a = true ∧
    natOfDigits a ≤ int64Max ∧
    b.length = 8 ∧ isDigits b = true ∧ c.length = 6 ∧ isDigits c = true ∧
    validCalendar b c

/-- The spec's resolution order, stated on two descriptors: the first
comes no later than the second — block descending, capture timestamp
descending as tiebreaker. -/
def specOrder (a b : Snapshot) : Prop :=
  b.block < a.block ∨ (a.block = b.block ∧ b.timestamp.key ≤ a.timestamp.key)

/-! ## Concrete test vectors -/

def mkSnap (blk : Int) (h : Nat) (nm : Str) : Snapshot :=
  { network := NetworkMainnet, type := SnapshotTypeFull, block := blk,
    timestamp := ⟨2025, 7, 6, h, 0, 0⟩, url := nm, filename := nm }

def snapA : Snapshot := mkSnap 100 10 "a".data

def snapB : Snapshot := mkSnap 200 11 "b".data

def snapC : Snapshot := mkSnap 200 9 "c".data

def snapD : Snapshot := mkSnap 50 12 "d".data

def snapE : Snapshot := mkSnap 100 10 "e".data

def nsLight : NetworkSnapshots :=
  { light := some { block := 1, timestamp := "t".data, url := "u".data } }

def nsBoth : NetworkSnapshots :=
  { full := some { block := 2, timestamp := "t".data, url := "uf".data },
    light := some { block := 1, timestamp := "t".data, url := "ul".data },
    previousFull := [{ block := 1, timestamp := "s".data, url := "pf".data }],
    previousLight := [{ block := 0, timestamp := "s".data, url := "pl".data }] }

def bucket₀ : Str := "bucket".data

/-- A state whose cache is fresh at time 0 but holds only mainnet. -/
def freshMainnetOnly : ServiceState :=
  { cache := fun n => if n = NetworkMainnet then some nsBoth else none,
    cacheTime := 0, cacheTTL := 300 }

def name₀ : Str := "mainnet-full-db-block-100-20250706-110000.tar.gz".data

def base₀ : Str := "https://storage.googleapis.com/bucket/o".data

/-- The descriptor `ParseSnapshot name₀ base₀` produces. -/
def snap₀ : Snapshot :=
  { network := NetworkMainnet, type := SnapshotTypeFull, block := 100,
    timestamp := ⟨2025, 7, 6, 11, 0, 0⟩,
    url := "https://storage.googleapis.com/bucket/mainnet-full-db-block-100-20250706-110000.tar.gz".data,
    filename := name₀ }

/-- A grammar-valid name whose block digits exceed the signed 64-bit
range. -/
def bigName₀ : Str :=
  "mainnet-full-db-block-9999999999999999999-20250706-110000.tar.gz".data

def bigDigits₀ : Str := "9999999999999999999".data

/-- A second overflow name: block digits are exactly 2^63. -/
def bigName₁ : Str :=
  "testnet-light-db-block-9223372036854775808-20240229-235959.tar.gz".data

def bigDigits₁ : Str := "9223372036854775808".data

/-! ## Properties of the comparator -/

theorem snapLess_iff (a b : Snapshot) :
    snapLess a b = true ↔
      b.block < a.block ∨ (a.block = b.block ∧ b.timestamp.key < a.timestamp.key) := by
  unfold snapLess DateTime.after
  by_cases h : a.block = b.block
  · rw [if_neg (show ¬a.block ≠ b.block from fun hne => hne h)]
    simp only [decide_eq_true_eq]
    omega
  · rw [if_pos h]
    simp only [decide_eq_true_eq]
    omega

theorem snapLE_iff (a b : Snapshot) :
    snapLE a b = true ↔ specOrder a b := by
  have hless := snapLess_iff b a
  unfold snapLE specOrder
  cases hba : snapLess b a with
  | true =>
    rw [hba] at hless
    simp only [Bool.not_true]
    constructor
    · intro h
      exact absurd h (by decide)
    · intro h
      exfalso
      have h2 := hless.mp rfl
      omega
  | false =>
    rw [hba] at hless
    simp only [Bool.not_false]
    constructor
    · intro _
      have hA : ¬ (a.block < b.block ∨
          (b.block = a.block ∧ a.timestamp.key < b.timestamp.key)) := by
        intro hA
        exact absurd (hless.mpr hA) (by decide)
      omega
    · intro _
      trivial

theorem snapRel_iff (a b : Snapshot) : snapRel a b ↔ specOrder a b :=
  snapLE_iff a b

theorem snapRel_total : ∀ a b : Snapshot, snapRel a b ∨ snapRel b a := by
  intro a b
  rw [snapRel_iff, snapRel_iff]
  unfold specOrder
  omega

theorem snapRel_trans :
    ∀ a b c : Snapshot, snapRel a b → snapRel b c → snapRel a c := by
  intro a b c hab hbc
  rw [snapRel_iff] at *
  unfold specOrder at *
  omega

/-! ## Structure of `findLatestAndPreviousSnapshots` -/

theorem findLatest_eq (l : List Snapshot) (latest : Snapshot)
    (prev : List Snapshot)
    (h : findLatestAndPreviousSnapshots l = (some latest, prev)) :
    ∃ rest, l.insertionSort snapRel = latest :: rest ∧ prev = rest.take 3 := by
  unfold findLatestAndPreviousSnapshots at h
  by_cases hl : l = []
  · rw [if_pos hl] at h
    exact absurd (congrArg Prod.fst h) (by simp)
  · rw [if_neg hl] at h
    have h1 := congrArg Prod.fst h
    have h2 := congrArg Prod.snd h
    simp only at h1 h2
    cases hs : l.insertionSort snapRel with
    | nil =>
      rw [hs] at h1
      exact absurd h1 (by simp)
    | cons a rest =>
      rw [hs] at h1 h2
      simp only [List.head?_cons, Option.some.injEq] at h1
      refine ⟨rest, ?_, ?_⟩
      · rw [h1]
      · rw [← h2]
        simp

theorem findLatest_sorted (l : List Snapshot) :
    List.Sorted snapRel (l.insertionSort snapRel) := by
  haveI : IsTotal Snapshot snapRel := ⟨snapRel_total⟩
  haveI : IsTrans Snapshot snapRel := ⟨snapRel_trans⟩
  exact List.sorted_insertionSort snapRel l

/-- C1: for every non-empty list of snapshots sharing a
(network, kind), `findLatestAndPreviousSnapshots` returns as latest a
snapshot of the group whose block number is the maximum of the group,
and among snapshots with that maximal block its capture timestamp is
the most recent. -/
theorem c1_latest_max_block_latest_timestamp (l : List Snapshot)
    (latest : Snapshot) (prev : List Snapshot)
    (h : findLatestAndPreviousSnapshots l = (some latest, prev)) :
    latest ∈ l ∧ (∀ s ∈ l, s.block ≤ latest.block) ∧
      ∀ s ∈ l, s.block = latest.block →
        s.timestamp.key ≤ latest.timestamp.key := by
  obtain ⟨rest, hs, -⟩ := findLatest_eq l latest prev h
  have hperm : List.Perm (l.insertionSort snapRel) l := List.perm_insertionSort snapRel l
  have hsorted := findLatest_sorted l
  rw [hs] at hperm hsorted
  have hmem : latest ∈ l := hperm.mem_iff.mp (List.mem_cons_self _ _)
  have hall : ∀ s ∈ l, s = latest ∨ specOrder latest s := by
    intro s hsl
    rcases List.mem_cons.mp (hperm.mem_iff.mpr hsl) with hhd | htl
    · exact Or.inl hhd
    · exact Or.inr ((snapRel_iff _ _).mp
        ((List.sorted_cons.mp hsorted).1 s htl))
  refine ⟨hmem, ?_, ?_⟩
  · intro s hsl
    rcases hall s hsl with rfl | hrel
    · omega
    · unfold specOrder at hrel
      omega
  · intro s hsl heq
    rcases hall s hsl with rfl | hrel
    · omega
    · unfold specOrder at hrel
      omega

theorem c1_witness :
    snapB ∈ [snapA, snapB, snapC, snapD] ∧
      (∀ s ∈ [snapA, snapB, snapC, snapD], s.block ≤ snapB.block) ∧
      ∀ s ∈ [snapA, snapB, snapC, snapD], s.block = snapB.block →
        s.timestamp.key ≤ snapB.timestamp.key :=
  c1_latest_max_block_latest_timestamp [snapA, snapB, snapC, snapD]
    snapB [snapC, snapA, snapD] (by decide)

/-- C2: for every list of snapshots sharing a (network, kind) with
count n, the previous list returned by
`findLatestAndPreviousSnapshots` has length `min 3 (n-1)`, does not
contain the latest element (elements are pairwise distinct objects in
the source, modelled by `Nodup`), and — prefixed with the latest — is
sorted by block descending with capture timestamp descending as
tiebreaker. -/
theorem c2_previous_shape (l : List Snapshot) (latest : Snapshot)
    (prev : List Snapshot)
    (h : findLatestAndPreviousSnapshots l = (some latest, prev)) :
    prev.length = min 3 (l.length - 1) ∧ (l.Nodup → latest ∉ prev) ∧
      List.Pairwise specOrder (latest :: prev) := by
  obtain ⟨rest, hs, hp⟩ := findLatest_eq l latest prev h
  have hperm : List.Perm (l.insertionSort snapRel) l :=
    List.perm_insertionSort snapRel l
  have hsorted := findLatest_sorted l
  rw [hs] at hperm hsorted
  have hlen : rest.length + 1 = l.length := by
    have := hperm.length_eq
    simpa using this
  subst hp
  refine ⟨?_, ?_, ?_⟩
  · rw [List.length_take]
    omega
  · intro hnd hmem
    have hnds : (latest :: rest).Nodup := hperm.symm.nodup hnd
    exact (List.nodup_cons.mp hnds).1 (List.take_subset 3 rest hmem)
  · have hsub : List.Sublist (latest :: rest.take 3) (latest :: rest) :=
      (List.take_sublist 3 rest).cons₂ latest
    exact (hsorted.sublist hsub).imp (fun hab => (snapRel_iff _ _).mp hab)

theorem c2_witness :
    ([snapC, snapA, snapE] : List Snapshot).length =
        min 3 ([snapA, snapB, snapC, snapD, snapE].length - 1) ∧
      snapB ∉ [snapC, snapA, snapE] ∧
      List.Pairwise specOrder [snapB, snapC, snapA, snapE] := by
  have h := c2_previous_shape [snapA, snapB, snapC, snapD, snapE]
    snapB [snapC, snapA, snapE] (by decide)
  exact ⟨h.1, h.2.1 (by decide), h.2.2⟩

/-- C6 counterexample: two distinct descriptors with equal block and
equal capture timestamp compare equal under the resolution comparator
— the ordering is not total on distinct objects. -/
theorem c6_counterexample :
    snapA ≠ snapE ∧ snapLess snapA snapE = false ∧
      snapLess snapE snapA = false := by
  decide

/-- C6 (amended): the comparator used to sort a (network, kind) group
is total on descriptors that differ in block number or in capture
timestamp; two distinct descriptors sharing both compare equal. -/
theorem c6_total_on_distinct_sort_keys (s t : Snapshot)
    (h : s.block ≠ t.block ∨ s.timestamp.key ≠ t.timestamp.key) :
    snapLess s t = true ∨ snapLess t s = true := by
  rw [snapLess_iff, snapLess_iff]
  omega

theorem c6_witness :
    (snapA.block ≠ snapB.block ∨ snapA.timestamp.key ≠ snapB.timestamp.key) ∧
      (snapLess snapA snapB = true ∨ snapLess snapB snapA = true) :=
  ⟨by decide, c6_total_on_distinct_sort_keys snapA snapB (by decide)⟩

/-! ## Structure of `splitDash` -/

theorem splitDash_ne_nil (l : Str) : splitDash l ≠ [] := by
  induction l with
  | nil => simp [splitDash]
  | cons c rest ih =>
    unfold splitDash
    by_cases hc : c = '-'
    · simp [hc]
    · rw [if_neg hc]
      cases h : splitDash rest with
      | nil => simp
      | cons p ps => simp

theorem joinDash_splitDash (l : Str) : joinDash (splitDash l) = l := by
  induction l with
  | nil => rfl
  | cons c rest ih =>
    by_cases hc : c = '-'
    · subst hc
      rw [show splitDash ('-' :: rest) = [] :: splitDash rest from by
        simp [splitDash]]
      cases h : splitDash rest with
      | nil => exact absurd h (splitDash_ne_nil rest)
      | cons p ps =>
        rw [h] at ih
        show [] ++ '-' :: joinDash (p :: ps) = '-' :: rest
        rw [ih]
        rfl
    · rw [show splitDash (c :: rest) =
          (match splitDash rest with
           | [] => [[c]]
           | p :: ps => (c :: p) :: ps) from by
        rw [splitDash, if_neg hc]]
      cases h : splitDash rest with
      | nil => exact absurd h (splitDash_ne_nil rest)
      | cons p ps =>
        rw [h] at ih
        cases ps with
        | nil =>
          show c :: p = c :: rest
          rw [show joinDash [p] = p from rfl] at ih
          rw [ih]
        | cons q qs =>
          show joinDash ((c :: p) :: q :: qs) = c :: rest
          rw [show joinDash ((c :: p) :: q :: qs) =
            (c :: p) ++ '-' :: joinDash (q :: qs) from rfl]
          rw [show joinDash (p :: q :: qs) =
            p ++ '-' :: joinDash (q :: qs) from rfl] at ih
          rw [← ih]
          rfl

theorem splitDash_append_cons (p rest : Str) (hp : '-' ∉ p) :
    splitDash (p ++ '-' :: rest) = p :: splitDash rest := by
  induction p with
  | nil => simp [splitDash]
  | cons c p ih =>
    have hc : c ≠ '-' := fun h => hp (h ▸ List.mem_cons_self c p)
    have hp' : '-' ∉ p := fun h => hp (List.mem_cons_of_mem c h)
    rw [List.cons_append, splitDash, if_neg hc, ih hp']

theorem splitDash_no_dash (p : Str) (hp : '-' ∉ p) : splitDash p = [p] := by
  induction p with
  | nil => rfl
  | cons c p ih =>
    have hc : c ≠ '-' := fun h => hp (h ▸ List.mem_cons_self c p)
    have hp' : '-' ∉ p := fun h => hp (List.mem_cons_of_mem c h)
    rw [splitDash, if_neg hc, ih hp']

theorem isDigits_no_dash (s : Str) (h : isDigits s = true) : '-' ∉ s := by
  intro hmem
  have hd := List.all_eq_true.mp h _ hmem
  exact absurd hd (by decide)

theorem validNetworks_no_dash (n : Str) (h : n ∈ validNetworks) : '-' ∉ n := by
  simp only [validNetworks, List.mem_cons, List.not_mem_nil, or_false] at h
  rcases h with h | h | h <;> subst h <;> decide

theorem validTypes_no_dash (k : Str) (h : k ∈ validTypes) : '-' ∉ k := by
  simp only [validTypes, List.mem_cons, List.not_mem_nil, or_false] at h
  rcases h with h | h <;> subst h <;> decide

theorem splitDash_of_form (n k a b c : Str)
    (hn : '-' ∉ n) (hk : '-' ∉ k) (ha : '-' ∉ a) (hb : '-' ∉ b)
    (hc : '-' ∉ c) :
    splitDash (n ++ '-' :: (k ++ '-' :: ("db".data ++ '-' ::
        ("block".data ++ '-' :: (a ++ '-' :: (b ++ '-' ::
          (c ++ tarGzStr))))))) =
      [n, k, "db".data, "block".data, a, b, c ++ tarGzStr] := by
  have hlast : '-' ∉ c ++ tarGzStr := by
    intro hmem
    rcases List.mem_append.mp hmem with h | h
    · exact hc h
    · revert h
      decide
  rw [splitDash_append_cons _ _ hn, splitDash_append_cons _ _ hk,
    splitDash_append_cons _ _ (by decide), splitDash_append_cons _ _ (by decide),
    splitDash_append_cons _ _ ha, splitDash_append_cons _ _ hb,
    splitDash_no_dash _ hlast]

theorem regexMatch_of_form (name n k a b c : Str)
    (hform : snapshotNameForm name n k a b c)
    (hn : n ∈ validNetworks) (hk : k ∈ validTypes)
    (ha : a ≠ []) (had : isDigits a = true)
    (hb : b.length = 8) (hbd : isDigits b = true)
    (hc : c.length = 6) (hcd : isDigits c = true) :
    regexMatch name = some (n, k, a, b ++ '-' :: c) := by
  unfold snapshotNameForm at hform
  subst hform
  have hred : regexMatch (n ++ '-' :: (k ++ '-' :: ("db".data ++ '-' ::
      ("block".data ++ '-' :: (a ++ '-' :: (b ++ '-' ::
        (c ++ tarGzStr))))))) =
      if n ∈ validNetworks ∧ k ∈ validTypes ∧ "db".data = "db".data ∧
          "block".data = "block".data ∧ a ≠ [] ∧ isDigits a = true ∧
          b.length = 8 ∧ isDigits b = true ∧
          (c ++ tarGzStr).length = 13 ∧
          isDigits ((c ++ tarGzStr).take 6) = true ∧
          (c ++ tarGzStr).drop 6 = tarGzStr then
        some (n, k, a, b ++ '-' :: (c ++ tarGzStr).take 6)
      else none := by
    unfold regexMatch
    rw [splitDash_of_form n k a b c (validNetworks_no_dash n hn)
      (validTypes_no_dash k hk) (isDigits_no_dash a had)
      (isDigits_no_dash b hbd) (isDigits_no_dash c hcd)]
  rw [hred, List.take_left' hc]
  rw [if_pos ⟨hn, hk, rfl, rfl, ha, had, hb, hbd,
    by rw [List.length_append, hc]; rfl, hcd, List.drop_left' hc⟩]

theorem regexMatch_some (name n k a ts : Str)
    (h : regexMatch name = some (n, k, a, ts)) :
    ∃ b c, snapshotNameForm name n k a b c ∧ n ∈ validNetworks ∧
      k ∈ validTypes ∧ a ≠ [] ∧ isDigits a = true ∧
      b.length = 8 ∧ isDigits b = true ∧ c.length = 6 ∧ isDigits c = true ∧
      ts = b ++ '-' :: c := by
  have hjoin := joinDash_splitDash name
  unfold regexMatch at h
  generalize hps : splitDash name = ps at h hjoin
  rcases ps with - | ⟨p1, - | ⟨p2, - | ⟨p3, - | ⟨p4, - | ⟨p5, - |
    ⟨p6, - | ⟨p7, - | ⟨p8, ps'⟩⟩⟩⟩⟩⟩⟩⟩
  all_goals try exact Option.noConfusion h
  have h' : (if p1 ∈ validNetworks ∧ p2 ∈ validTypes ∧ p3 = "db".data ∧
      p4 = "block".data ∧ p5 ≠ [] ∧ isDigits p5 = true ∧
      p6.length = 8 ∧ isDigits p6 = true ∧ p7.length = 13 ∧
      isDigits (p7.take 6) = true ∧ p7.drop 6 = tarGzStr then
        some (p1, p2, p5, p6 ++ '-' :: p7.take 6)
      else none) = some (n, k, a, ts) := h
  by_cases hcond : p1 ∈ validNetworks ∧ p2 ∈ validTypes ∧ p3 = "db".data ∧
      p4 = "block".data ∧ p5 ≠ [] ∧ isDigits p5 = true ∧
      p6.length = 8 ∧ isDigits p6 = true ∧ p7.length = 13 ∧
      isDigits (p7.take 6) = true ∧ p7.drop 6 = tarGzStr
  case neg =>
    rw [if_neg hcond] at h'
    exact Option.noConfusion h'
  rw [if_pos hcond] at h'
  obtain ⟨hn', hk', hdb, hblk, ha', had', hb', hbd', hlen13, hdig6, hdrop⟩ :=
    hcond
  have hinj := Option.some.inj h'
  obtain ⟨h1, h2, h3, h4⟩ : p1 = n ∧ p2 = k ∧ p5 = a ∧
      p6 ++ '-' :: p7.take 6 = ts := by
    refine ⟨congrArg (·.1) hinj, ?_, ?_, ?_⟩
    · exact congrArg (·.2.1) hinj
    · exact congrArg (·.2.2.1) hinj
    · exact congrArg (·.2.2.2) hinj
  subst h1 h2 h3 hdb hblk
  refine ⟨p6, p7.take 6, ?_, hn', hk', ha', had', hb', hbd', ?_, hdig6, ?_⟩
  · unfold snapshotNameForm
    rw [← hjoin]
    have hp7 : p7 = p7.take 6 ++ tarGzStr := by
      conv_lhs => rw [← List.take_append_drop 6 p7]
      rw [hdrop]
    rw [show joinDash [p1, p2, "db".data, "block".data, p5, p6, p7] =
      p1 ++ '-' :: (p2 ++ '-' :: ("db".data ++ '-' :: ("block".data ++ '-' ::
        (p5 ++ '-' :: (p6 ++ '-' :: p7))))) from rfl]
    rw [← hp7]
  · rw [List.length_take, hlen13]
    decide
  · rw [h4]

theorem parseTimestamp_concat (b c : Str) (hb : b.length = 8)
    (hbd : isDigits b = true) (hc : c.length = 6) (hcd : isDigits c = true) :
    (parseTimestamp (b ++ '-' :: c)).isSome = true ↔ validCalendar b c := by
  have hlen : (b ++ '-' :: c).length = 15 := by
    simp [List.length_append, hb, hc]
  have htake8 : (b ++ '-' :: c).take 8 = b := List.take_left' hb
  have hdrop8 : (b ++ '-' :: c).drop 8 = '-' :: c := List.drop_left' hb
  have hdrop9 : (b ++ '-' :: c).drop 9 = c := by
    rw [show (9 : Nat) = 8 + 1 from rfl, ← List.drop_drop, hdrop8]
    simp
  have htake1 : ((b ++ '-' :: c).drop 8).take 1 = ['-'] := by
    rw [hdrop8]
    simp
  have htake4 : (b ++ '-' :: c).take 4 = b.take 4 :=
    List.take_append_of_le_length (by omega)
  have hdrop4 : (b ++ '-' :: c).drop 4 = b.drop 4 ++ '-' :: c :=
    List.drop_append_of_le_length (by omega)
  have hd4len : (b.drop 4).length = 4 := by simp [hb]
  have htake2of4 : ((b ++ '-' :: c).drop 4).take 2 = (b.drop 4).take 2 := by
    rw [hdrop4]
    exact List.take_append_of_le_length (by omega)
  have hdrop6 : (b ++ '-' :: c).drop 6 = b.drop 6 ++ '-' :: c :=
    List.drop_append_of_le_length (by omega)
  have hd6len : (b.drop 6).length = 2 := by simp [hb]
  have htake2of6 : ((b ++ '-' :: c).drop 6).take 2 = b.drop 6 := by
    rw [hdrop6]
    exact List.take_left' hd6len
  have hdrop11 : (b ++ '-' :: c).drop 11 = c.drop 2 := by
    rw [show (11 : Nat) = 9 + 2 from rfl, ← List.drop_drop, hdrop9]
  have htake2of11 : ((b ++ '-' :: c).drop 11).take 2 = (c.drop 2).take 2 := by
    rw [hdrop11]
  have hdrop13 : (b ++ '-' :: c).drop 13 = c.drop 4 := by
    rw [show (13 : Nat) = 9 + 4 from rfl, ← List.drop_drop, hdrop9]
  have hcd4len : (c.drop 4).length = 2 := by simp [hc]
  have htake2of13 : ((b ++ '-' :: c).drop 13).take 2 = c.drop 4 := by
    rw [hdrop13]
    exact List.take_of_length_le (by omega)
  unfold parseTimestamp
  rw [hlen, htake8, htake1, htake4, htake2of4, htake2of6, hdrop9, htake2of11,
    htake2of13]
  rw [if_pos ⟨rfl, hbd, rfl, hcd⟩]
  simp only []
  unfold validCalendar
  by_cases hcal : 1 ≤ natOfDigits ((b.drop 4).take 2) ∧
      natOfDigits ((b.drop 4).take 2) ≤ 12 ∧ 1 ≤ natOfDigits (b.drop 6) ∧
      natOfDigits (b.drop 6) ≤
        daysInMonth (natOfDigits (b.take 4)) (natOfDigits ((b.drop 4).take 2)) ∧
      natOfDigits (c.take 2) ≤ 23 ∧ natOfDigits ((c.drop 2).take 2) ≤ 59 ∧
      natOfDigits (c.drop 4) ≤ 59
  · rw [if_pos hcal]
    simp only [Option.isSome_some]
    exact iff_of_true trivial hcal
  · rw [if_neg hcal]
    simp only [Option.isSome_none]
    exact iff_of_false (by simp) hcal

/-! ## Behaviour of the cache/refresh coordinator -/

theorem getSnapshots_fresh_hit (st : ServiceState) (bucketName : Str)
    (network : Network) (authenticated : Bool) (now : Nat) (resp : HTTPResult)
    (c : NetworkSnapshots) (hc : st.cache network = some c)
    (hfresh : now - st.cacheTime < st.cacheTTL) :
    GetSnapshotsWithAuth st bucketName network authenticated now resp =
      ⟨.ok (if authenticated then c else filterUnauthenticated c), st, false⟩ := by
  have hd : decide (now - st.cacheTime < st.cacheTTL) = true := by
    simp [hfresh]
  unfold GetSnapshotsWithAuth
  rw [hc, hd]
  cases authenticated <;> rfl

theorem getSnapshots_refresh (st : ServiceState) (bucketName : Str)
    (network : Network) (authenticated : Bool) (now : Nat) (resp : HTTPResult)
    (hmiss : st.cache network = none ∨ ¬ now - st.cacheTime < st.cacheTTL) :
    GetSnapshotsWithAuth st bucketName network authenticated now resp =
      match fetchSnapshots bucketName resp with
      | .error e => ⟨.error e, st, true⟩
      | .ok snapshots =>
        let newCache := processSnapshots snapshots
        let st' : ServiceState :=
          { cache := newCache, cacheTime := now, cacheTTL := st.cacheTTL }
        match newCache network with
        | none => ⟨.ok {}, st', true⟩
        | some result =>
          if !authenticated then ⟨.ok (filterUnauthenticated result), st', true⟩
          else ⟨.ok result, st', true⟩ := by
  unfold GetSnapshotsWithAuth
  rcases hmiss with h | h
  · rw [h]
  · have hd : decide (now - st.cacheTime < st.cacheTTL) = false := by
      simp [h]
    rw [hd]
    cases hcache : st.cache network <;> rfl

theorem fetched_iff_miss (st : ServiceState) (bucketName : Str)
    (network : Network) (authenticated : Bool) (now : Nat) (resp : HTTPResult) :
    (GetSnapshotsWithAuth st bucketName network authenticated now resp).fetched
        = true ↔
      (st.cache network = none ∨ ¬ now - st.cacheTime < st.cacheTTL) := by
  constructor
  · intro hf
    by_contra hmiss
    push_neg at hmiss
    obtain ⟨hne, hfresh⟩ := hmiss
    obtain ⟨c, hc⟩ := Option.ne_none_iff_exists'.mp hne
    rw [getSnapshots_fresh_hit st bucketName network authenticated now resp c
      hc hfresh] at hf
    exact absurd hf (by simp)
  · intro hmiss
    rw [getSnapshots_refresh st bucketName network authenticated now resp hmiss]
    cases hfr : fetchSnapshots bucketName resp with
    | error e => rfl
    | ok snapshots =>
      simp only
      cases hnc : processSnapshots snapshots network with
      | none => rfl
      | some result => cases authenticated <;> rfl

/-- C3 counterexample: a cache that is fresh (age 0, TTL 300) but has
no entry for the requested network does invoke the fetcher — the call
even fails outright when the fetch fails, instead of returning an empty
`NetworkSnapshots` without fetching. -/
theorem c3_counterexample :
    0 - freshMainnetOnly.cacheTime < freshMainnetOnly.cacheTTL ∧
      (GetSnapshotsWithAuth freshMainnetOnly bucket₀ NetworkDevnet true 0
        HTTPResult.transportError).fetched = true ∧
      (GetSnapshotsWithAuth freshMainnetOnly bucket₀ NetworkDevnet true 0
        HTTPResult.transportError).result = .error .transport :=
  ⟨by decide, rfl, rfl⟩

/-- C3 (amended): while the cache is fresh and holds an entry for the
requested network, `GetSnapshotsWithAuth` serves that entry (redacted
when unauthenticated) without invoking the fetcher and leaves the state
unchanged.  A fresh cache lacking the requested network triggers a
refresh instead. -/
theorem c3_fresh_entry_served_without_fetch (st : ServiceState)
    (bucketName : Str) (network : Network) (authenticated : Bool) (now : Nat)
    (resp : HTTPResult) (c : NetworkSnapshots)
    (hc : st.cache network = some c)
    (hfresh : now - st.cacheTime < st.cacheTTL) :
    (GetSnapshotsWithAuth st bucketName network authenticated now resp).fetched
        = false ∧
      (GetSnapshotsWithAuth st bucketName network authenticated now resp).state
        = st ∧
      (GetSnapshotsWithAuth st bucketName network authenticated now resp).result
        = .ok (if authenticated then c else filterUnauthenticated c) := by
  rw [getSnapshots_fresh_hit st bucketName network authenticated now resp c
    hc hfresh]
  exact ⟨rfl, rfl, rfl⟩

theorem c3_witness :
    (GetSnapshotsWithAuth freshMainnetOnly bucket₀ NetworkMainnet true 0
        HTTPResult.transportError).fetched = false ∧
      (GetSnapshotsWithAuth freshMainnetOnly bucket₀ NetworkMainnet true 0
        HTTPResult.transportError).state = freshMainnetOnly ∧
      (GetSnapshotsWithAuth freshMainnetOnly bucket₀ NetworkMainnet true 0
        HTTPResult.transportError).result =
        .ok (if true then nsBoth else filterUnauthenticated nsBoth) :=
  c3_fresh_entry_served_without_fetch freshMainnetOnly bucket₀ NetworkMainnet
    true 0 HTTPResult.transportError nsBoth rfl (by decide)

/-- C4: serving a cached `NetworkSnapshots`, `authenticated = false`
returns it with `Full`/`PreviousFull` absent and the light fields
unchanged, `authenticated = true` returns it unchanged, and neither
call alters the cache state. -/
theorem c4_authentication_redaction (st : ServiceState) (bucketName : Str)
    (network : Network) (now : Nat) (resp : HTTPResult)
    (c : NetworkSnapshots) (hc : st.cache network = some c)
    (hfresh : now - st.cacheTime < st.cacheTTL) :
    ((GetSnapshotsWithAuth st bucketName network false now resp).result =
        .ok { full := none, previousFull := [], light := c.light,
              previousLight := c.previousLight } ∧
      (GetSnapshotsWithAuth st bucketName network false now resp).state = st) ∧
      (GetSnapshotsWithAuth st bucketName network true now resp).result =
        .ok c ∧
      (GetSnapshotsWithAuth st bucketName network true now resp).state = st := by
  rw [getSnapshots_fresh_hit st bucketName network false now resp c hc hfresh,
    getSnapshots_fresh_hit st bucketName network true now resp c hc hfresh]
  exact ⟨⟨rfl, rfl⟩, rfl, rfl⟩

theorem c4_witness :
    ((GetSnapshotsWithAuth freshMainnetOnly bucket₀ NetworkMainnet false 0
          HTTPResult.transportError).result =
        .ok { full := none, previousFull := [], light := nsBoth.light,
              previousLight := nsBoth.previousLight } ∧
      (GetSnapshotsWithAuth freshMainnetOnly bucket₀ NetworkMainnet false 0
          HTTPResult.transportError).state = freshMainnetOnly) ∧
      (GetSnapshotsWithAuth freshMainnetOnly bucket₀ NetworkMainnet true 0
          HTTPResult.transportError).result = .ok nsBoth ∧
      (GetSnapshotsWithAuth freshMainnetOnly bucket₀ NetworkMainnet true 0
          HTTPResult.transportError).state = freshMainnetOnly :=
  c4_authentication_redaction freshMainnetOnly bucket₀ NetworkMainnet 0
    HTTPResult.transportError nsBoth rfl (by decide)

/-- C5: when the call invokes the fetcher and the fetch of the bucket
listing fails, the call returns the error and the cache state is
exactly what it was before the call. -/
theorem c5_fetch_failure_leaves_cache (st : ServiceState) (bucketName : Str)
    (network : Network) (authenticated : Bool) (now : Nat) (resp : HTTPResult)
    (e : FetchErr) (hfail : fetchSnapshots bucketName resp = .error e)
    (hfetch : (GetSnapshotsWithAuth st bucketName network authenticated now
        resp).fetched = true) :
    (GetSnapshotsWithAuth st bucketName network authenticated now resp).result
        = .error e ∧
      (GetSnapshotsWithAuth st bucketName network authenticated now resp).state
        = st := by
  have hmiss := (fetched_iff_miss st bucketName network authenticated now
    resp).mp hfetch
  rw [getSnapshots_refresh st bucketName network authenticated now resp hmiss,
    hfail]
  exact ⟨rfl, rfl⟩

theorem c5_witness :
    (GetSnapshotsWithAuth newServiceState bucket₀ NetworkMainnet true 7
        HTTPResult.transportError).result = .error FetchErr.transport ∧
      (GetSnapshotsWithAuth newServiceState bucket₀ NetworkMainnet true 7
        HTTPResult.transportError).state = newServiceState :=
  c5_fetch_failure_leaves_cache newServiceState bucket₀ NetworkMainnet true 7
    HTTPResult.transportError FetchErr.transport rfl rfl

/-- C10: when a triggered refresh fetches successfully and the rebuilt
cache has no entry for the requested network, the call returns a
`NetworkSnapshots` with all four fields absent and no error. -/
theorem c10_refresh_missing_network_empty (st : ServiceState)
    (bucketName : Str) (network : Network) (authenticated : Bool) (now : Nat)
    (resp : HTTPResult) (snaps : List Snapshot)
    (hok : fetchSnapshots bucketName resp = .ok snaps)
    (hfetch : (GetSnapshotsWithAuth st bucketName network authenticated now
        resp).fetched = true)
    (hnone : processSnapshots snaps network = none) :
    (GetSnapshotsWithAuth st bucketName network authenticated now resp).result
      = .ok { full := none, light := none, previousFull := [],
              previousLight := [] } := by
  have hmiss := (fetched_iff_miss st bucketName network authenticated now
    resp).mp hfetch
  rw [getSnapshots_refresh st bucketName network authenticated now resp hmiss,
    hok]
  simp only
  rw [hnone]

theorem c10_witness :
    (GetSnapshotsWithAuth newServiceState bucket₀ NetworkDevnet true 7
        (HTTPResult.response 200 (some []))).result =
      .ok { full := none, light := none, previousFull := [],
            previousLight := [] } :=
  c10_refresh_missing_network_empty newServiceState bucket₀ NetworkDevnet true
    7 (HTTPResult.response 200 (some [])) [] rfl rfl rfl

/-! ## Parser claims -/

theorem parseSnapshot_after_match (filename baseURL n k a ts : Str)
    (hrm : regexMatch filename = some (n, k, a, ts)) :
    ParseSnapshot filename baseURL =
      match parseInt64Digits a with
      | none => none
      | some block =>
        match parseTimestamp ts with
        | none => none
        | some dt =>
          some { network := n, type := k, block := block, timestamp := dt,
                 url := trimSuffix baseURL oEndpoint ++ '/' :: filename,
                 filename := filename } := by
  unfold ParseSnapshot
  rw [hrm]

/-- C7 counterexample: a name matching the stated grammar with a valid
calendar date-time whose block digits exceed 2^63 - 1 is rejected by
`ParseSnapshot`, so acceptance is not exactly the stated grammar. -/
theorem c7_counterexample :
    grammarAccepted bigName₀ ∧ ParseSnapshot bigName₀ base₀ = none :=
  ⟨⟨NetworkMainnet, SnapshotTypeFull, bigDigits₀, "20250706".data,
    "110000".data, by decide⟩, by decide⟩

/-- C7 (amended): `ParseSnapshot` succeeds exactly on strings of the
form `<network>-<kind>-db-block-<digits>-<8digits>-<6digits>.tar.gz`
with the stated network and kind alternatives, a valid calendar
date-time, and a block digit string denoting a value of at most
2^63 - 1; it fails on every other input, for every base URL. -/
theorem c7_accepts_iff_grammar (name base : Str) :
    (ParseSnapshot name base).isSome = true ↔ grammarAcceptedBounded name := by
  constructor
  · intro h
    cases hrm : regexMatch name with
    | none =>
      unfold ParseSnapshot at h
      rw [hrm] at h
      exact absurd h (by simp)
    | some quad =>
      obtain ⟨n, k, a, ts⟩ := quad
      rw [parseSnapshot_after_match name base n k a ts hrm] at h
      obtain ⟨b, c, hform, hn, hk, ha, had, hb, hbd, hc, hcd, hts⟩ :=
        regexMatch_some name n k a ts hrm
      cases hpi : parseInt64Digits a with
      | none => rw [hpi] at h; exact absurd h (by simp)
      | some blockv =>
        rw [hpi] at h
        cases hpt : parseTimestamp ts with
        | none => rw [hpt] at h; exact absurd h (by simp)
        | some dt =>
          have hbound : natOfDigits a ≤ int64Max := by
            unfold parseInt64Digits at hpi
            rw [if_pos ⟨ha, had⟩] at hpi
            by_cases h2 : natOfDigits a ≤ int64Max
            · exact h2
            · rw [if_neg h2] at hpi
              exact Option.noConfusion hpi
          have hcal : validCalendar b c := by
            apply (parseTimestamp_concat b c hb hbd hc hcd).mp
            rw [← hts, hpt]
            rfl
          exact ⟨n, k, a, b, c, hform, hn, hk, ha, had, hbound, hb, hbd,
            hc, hcd, hcal⟩
  · rintro ⟨n, k, a, b, c, hform, hn, hk, ha, had, hbound, hb, hbd, hc,
      hcd, hcal⟩
    rw [parseSnapshot_after_match name base n k a (b ++ '-' :: c)
      (regexMatch_of_form name n k a b c hform hn hk ha had hb hbd hc hcd)]
    rw [show parseInt64Digits a = some ((natOfDigits a : Int)) from by
      unfold parseInt64Digits
      rw [if_pos ⟨ha, had⟩, if_pos hbound]]
    obtain ⟨dt, hdt⟩ := Option.isSome_iff_exists.mp
      ((parseTimestamp_concat b c hb hbd hc hcd).mpr hcal)
    rw [hdt]
    rfl

/-- C8: for every filename accepted by `ParseSnapshot` and every base
URL, the snapshot's URL is the base URL with a trailing `/o` removed,
joined with `/` and the raw filename, so the raw name is a suffix of
the URL. -/
theorem c8_url_is_trimmed_base_join_name (name base : Str) (snap : Snapshot)
    (h : ParseSnapshot name base = some snap) :
    snap.url = trimSuffix base oEndpoint ++ '/' :: name ∧
      name <:+ snap.url := by
  cases hrm : regexMatch name with
  | none =>
    unfold ParseSnapshot at h
    rw [hrm] at h
    exact Option.noConfusion h
  | some quad =>
    obtain ⟨n, k, a, ts⟩ := quad
    rw [parseSnapshot_after_match name base n k a ts hrm] at h
    cases hpi : parseInt64Digits a with
    | none => rw [hpi] at h; exact Option.noConfusion h
    | some blockv =>
      rw [hpi] at h
      cases hpt : parseTimestamp ts with
      | none => rw [hpt] at h; exact Option.noConfusion h
      | some dt =>
        rw [hpt] at h
        have hsnap := Option.some.inj h
        constructor
        · rw [← hsnap]
        · rw [← hsnap]
          exact ⟨trimSuffix base oEndpoint ++ ['/'], by simp⟩

theorem c8_witness :
    snap₀.url = trimSuffix base₀ oEndpoint ++ '/' :: name₀ ∧
      name₀ <:+ snap₀.url :=
  c8_url_is_trimmed_base_join_name name₀ base₀ snap₀ (by decide)

/-- C9: a filename matching the accepted grammar whose block digit
string denotes a value greater than 2^63 - 1 is rejected by
`ParseSnapshot` (the block is parsed as a signed 64-bit integer). -/
theorem c9_overflowing_block_rejected (name base n k a b c : Str)
    (hform : snapshotNameForm name n k a b c)
    (hn : n ∈ validNetworks) (hk : k ∈ validTypes)
    (ha : a ≠ []) (had : isDigits a = true)
    (hb : b.length = 8) (hbd : isDigits b = true)
    (hc : c.length = 6) (hcd : isDigits c = true)
    (hbig : int64Max < natOfDigits a) :
    ParseSnapshot name base = none := by
  rw [parseSnapshot_after_match name base n k a (b ++ '-' :: c)
    (regexMatch_of_form name n k a b c hform hn hk ha had hb hbd hc hcd)]
  rw [show parseInt64Digits a = none from by
    unfold parseInt64Digits
    rw [if_pos ⟨ha, had⟩, if_neg (by omega)]]

theorem c9_witness : ParseSnapshot bigName₁ base₀ = none :=
  c9_overflowing_block_rejected bigName₁ base₀ NetworkTestnet
    SnapshotTypeLight bigDigits₁ "20240229".data "235959".data
    (by decide) (by decide) (by decide) (by decide) (by decide)
    (by decide) (by decide) (by decide) (by decide) (by decide)

end SnapshotsApi
